import Mathlib

/-!
Verification of the calendar arithmetic and normalization engine of the
joda-rs library (local_date.rs, local_time.rs, local_date_time.rs,
duration.rs, chrono_unit.rs, instant.rs, month.rs, year.rs).

Modelling conventions.

Machine integers are modelled as unbounded Int.  Every explicit range
check, cast or wrapping operation written in the repository source is
modelled faithfully: the i32 year-overflow guard in plus_years, the
truncating division and remainder of Rust (Int.tdiv / Int.tmod), the
"as u8" and "as i64" casts (reduction modulo 256 resp. wrapping into
the i64 range), and the saturation bounds of the duration type.
Implicit two's-complement overflow of ordinary Rust arithmetic, which
panics in debug builds, is idealized away, as is the bounded year range
of the underlying civil-calendar primitive.

The civil-calendar primitive (the time crate) is an external
collaborator of the specified core; the spec describes its consumed
interface as: validate(year, month, day), date plus signed day count,
ordinal-of-year conversion, and wrapping time-of-day addition.  It is
modelled here by executable proleptic-Gregorian functions
(daysBeforeYear, epochDayOfYmd, civilFromEpochDay, timeAddNanos), and
the saturating duration arithmetic of the primitive is modelled by
clamping the exact total nanosecond value to the representable range.
-/

set_option maxRecDepth 4000

/-- Leap-year rule from Year::is_leap in year.rs:
(y % 4 == 0) && ((y % 100 != 0) || (y % 400 == 0)).
Rust % on i32 is the truncating remainder; a truncating remainder is zero
exactly when the Euclidean remainder is zero, so the Euclidean % used here
decides the same predicate. -/
def Year.is_leap (y : Int) : Bool :=
  y % 4 == 0 && (y % 100 != 0 || y % 400 == 0)

/-- Month length table from Month::length in month.rs; the month is its
1-based numeric value (Month::of / Month::value). -/
def Month.length (m : Int) (leap : Bool) : Int :=
  if m = 1 then 31
  else if m = 2 then (if leap then 29 else 28)
  else if m = 3 then 31
  else if m = 4 then 30
  else if m = 5 then 31
  else if m = 6 then 30
  else if m = 7 then 31
  else if m = 8 then 31
  else if m = 9 then 30
  else if m = 10 then 31
  else if m = 11 then 30
  else 31

/-- Year length from Year::length in year.rs. -/
def Year.length (y : Int) : Int :=
  if Year.is_leap y then 366 else 365

/-- Days in month m of year y, as computed throughout local_date.rs by
Month::of(m).length(Year::of(y).is_leap()). -/
def daysInMonth (y m : Int) : Int :=
  Month.length m (Year.is_leap y)

/-- Cumulative number of days strictly before month m (1-based) in a year of
the given leapness.  Models the ordinal-of-year conversion of the civil
calendar collaborator (spec section 4.1 and 6). -/
def daysBeforeMonth (leap : Bool) (m : Int) : Int :=
  let f : Int := if leap then 1 else 0
  if m ≤ 1 then 0
  else if m = 2 then 31
  else if m = 3 then 59 + f
  else if m = 4 then 90 + f
  else if m = 5 then 120 + f
  else if m = 6 then 151 + f
  else if m = 7 then 181 + f
  else if m = 8 then 212 + f
  else if m = 9 then 243 + f
  else if m = 10 then 273 + f
  else if m = 11 then 304 + f
  else 334 + f

/-- Total number of days in the proleptic-Gregorian years k with 0 ≤ k < y
(negative count for y < 0).  Divisors are positive, so Euclidean division
coincides with floor division here. -/
def daysBeforeYear (y : Int) : Int :=
  365 * y + (y + 3) / 4 - (y + 99) / 100 + (y + 399) / 400

/-- Epoch-day number (days since 1970-01-01) of a civil date; models the
day-count view of the civil calendar collaborator.  The year 1970 starts
719528 days after the year 0. -/
def epochDayOfYmd (y m d : Int) : Int :=
  daysBeforeYear y + daysBeforeMonth (Year.is_leap y) m + (d - 1) - 719528

/-- Year of era for a day offset doe in [0, 146097) inside one 400-year
Gregorian era: the floor of doe / 366 underestimates the year of era by at
most 2, and the two comparisons select the right candidate. -/
def yoeOfDoe (doe : Int) : Int :=
  let l := doe / 366
  if doe < daysBeforeYear (l + 1) then l
  else if doe < daysBeforeYear (l + 2) then l + 1
  else l + 2

/-- Month (1-based) containing the 0-based ordinal day doy of a year of the
given leapness. -/
def monthOfDoy (leap : Bool) (doy : Int) : Int :=
  if doy < daysBeforeMonth leap 2 then 1
  else if doy < daysBeforeMonth leap 3 then 2
  else if doy < daysBeforeMonth leap 4 then 3
  else if doy < daysBeforeMonth leap 5 then 4
  else if doy < daysBeforeMonth leap 6 then 5
  else if doy < daysBeforeMonth leap 7 then 6
  else if doy < daysBeforeMonth leap 8 then 7
  else if doy < daysBeforeMonth leap 9 then 8
  else if doy < daysBeforeMonth leap 10 then 9
  else if doy < daysBeforeMonth leap 11 then 10
  else if doy < daysBeforeMonth leap 12 then 11
  else 12

/-- Civil date of an epoch-day number: inverse day-count conversion of the
civil calendar collaborator. -/
def civilFromEpochDay (z : Int) : Int × Int × Int :=
  let zd := z + 719528
  let era := zd / 146097
  let doe := zd % 146097
  let yoe := yoeOfDoe doe
  let y := 400 * era + yoe
  let doy := doe - daysBeforeYear yoe
  let leap := Year.is_leap y
  let m := monthOfDoy leap doy
  (y, m, doy - daysBeforeMonth leap m + 1)

/-- LocalDate from local_date.rs: a proleptic-Gregorian calendar date.  The
wrapped time::Date of the source is represented by its
year / month / day-of-month fields. -/
structure LocalDate where
  year : Int
  month : Int
  day : Int
deriving DecidableEq, Repr

/-- Calendar validity: the invariant of the wrapped time::Date value
(spec section 3): month in 1..=12 and day in 1..=days-in-month. -/
def LocalDate.isValid (dt : LocalDate) : Prop :=
  1 ≤ dt.month ∧ dt.month ≤ 12 ∧ 1 ≤ dt.day ∧ dt.day ≤ daysInMonth dt.year dt.month

instance (dt : LocalDate) : Decidable dt.isValid := by
  unfold LocalDate.isValid
  infer_instance

/-- LocalDate::new from local_date.rs: Month::try_from(month as u8) followed
by time::Date::from_calendar_date(year, m, day as u8); both expect calls are
modelled by none.  The "as u8" casts keep the low 8 bits. -/
def LocalDate.new (y m d : Int) : Option LocalDate :=
  let mu := m % 256
  let du := d % 256
  if 1 ≤ mu ∧ mu ≤ 12 ∧ 1 ≤ du ∧ du ≤ daysInMonth y mu then
    some ⟨y, mu, du⟩
  else
    none

/-- LocalDate::of from local_date.rs (alias of new). -/
def LocalDate.of (y m d : Int) : Option LocalDate :=
  LocalDate.new y m d

/-- Epoch-day number of a LocalDate (collaborator view of the wrapped
time::Date). -/
def LocalDate.toEpochDay (dt : LocalDate) : Int :=
  epochDayOfYmd dt.year dt.month dt.day

/-- LocalDate from an epoch-day number (collaborator view). -/
def LocalDate.ofEpochDay (z : Int) : LocalDate :=
  let c := civilFromEpochDay z
  ⟨c.1, c.2.1, c.2.2⟩

/-- Ordinal day of year (1-based) of a LocalDate, as returned by the
collaborator ordinal() call used by LocalDate::day_of_year. -/
def LocalDate.day_of_year (dt : LocalDate) : Int :=
  daysBeforeMonth (Year.is_leap dt.year) dt.month + dt.day

/-- First while loop of LocalDate::plus_months in local_date.rs:
while month > 12 { month -= 12; year += 1 }. -/
def carryMonthsUp (year month : Int) : Int × Int :=
  if month > 12 then carryMonthsUp (year + 1) (month - 12) else (year, month)
termination_by (month - 12).toNat
decreasing_by
  omega

/-- Second while loop of LocalDate::plus_months in local_date.rs:
while month < 1 { month += 12; year -= 1 }. -/
def carryMonthsDown (year month : Int) : Int × Int :=
  if month < 1 then carryMonthsDown (year - 1) (month + 12) else (year, month)
termination_by (1 - month).toNat
decreasing_by
  omega

/-- LocalDate::plus_months from local_date.rs lines 357-376: add to the raw
month value, normalize by the two while loops, clamp the day to the last day
of the resulting month, rebuild with LocalDate::new. -/
def LocalDate.plus_months (dt : LocalDate) (months : Int) : Option LocalDate :=
  let p := carryMonthsUp dt.year (dt.month + months)
  let q := carryMonthsDown p.1 p.2
  let lastDay := Month.length q.2 (Year.is_leap q.1)
  let day := min dt.day lastDay
  LocalDate.new q.1 q.2 day

/-- LocalDate::minus_months from local_date.rs lines 487-495: its own
arithmetic path, using Rust truncating division / for the year and the
(x % 12 + 12) % 12 pattern for the month.  Rust % is the truncating
remainder Int.tmod; the outer remainder acts on a value in (0, 24), where
the truncating and Euclidean remainders agree. -/
def LocalDate.minus_months (dt : LocalDate) (months : Int) : Option LocalDate :=
  let totalMonths := (dt.year * 12 + (dt.month - 1)) - months
  let year := totalMonths.tdiv 12
  let month := (totalMonths.tmod 12 + 12) % 12 + 1
  let lastDay := Month.length month (Year.is_leap year)
  let day := min dt.day lastDay
  LocalDate.new year month day

/-- LocalDate::plus_years from local_date.rs lines 317-331: explicit i32
range check on the target year (panic "year overflow" modelled by none),
clamp of Feb 29 to Feb 28 on a non-leap target year, rebuild via
from_calendar_date (expect modelled by none through LocalDate.new). -/
def LocalDate.plus_years (dt : LocalDate) (years : Int) : Option LocalDate :=
  let target := dt.year + years
  if target > 2147483647 ∨ target < -2147483648 then
    none
  else
    let day := if dt.month = 2 ∧ dt.day = 29 ∧ Year.is_leap target = false then 28 else dt.day
    LocalDate.new target dt.month day

/-- LocalDate::minus_years from local_date.rs line 459-461: exactly
plus_years(-years). -/
def LocalDate.minus_years (dt : LocalDate) (years : Int) : Option LocalDate :=
  dt.plus_years (-years)

/-- LocalDate::plus_days from local_date.rs line 431-433: day-count addition
delegated to the civil calendar collaborator (time::Date::checked_add of a
whole-day duration). -/
def LocalDate.plus_days (dt : LocalDate) (days : Int) : LocalDate :=
  LocalDate.ofEpochDay (dt.toEpochDay + days)

/-- LocalDate::plus_weeks from local_date.rs line 403-405: day-count addition
of Duration::of_weeks(weeks), which contributes weeks * 7 whole days. -/
def LocalDate.plus_weeks (dt : LocalDate) (weeks : Int) : LocalDate :=
  LocalDate.ofEpochDay (dt.toEpochDay + 7 * weeks)

/-- LocalDate::minus_days from local_date.rs line 549-551 (checked_sub). -/
def LocalDate.minus_days (dt : LocalDate) (days : Int) : LocalDate :=
  LocalDate.ofEpochDay (dt.toEpochDay - days)

/-- LocalDate::minus_weeks from local_date.rs line 521-523 (checked_sub). -/
def LocalDate.minus_weeks (dt : LocalDate) (weeks : Int) : LocalDate :=
  LocalDate.ofEpochDay (dt.toEpochDay - 7 * weeks)

/-- LocalDate::with_year from local_date.rs line 574-576: replace_year on the
collaborator revalidates the whole date (errors on Feb 29 of a non-leap
target year); expect modelled by none. -/
def LocalDate.with_year (dt : LocalDate) (y : Int) : Option LocalDate :=
  if 1 ≤ dt.day ∧ dt.day ≤ daysInMonth y dt.month then
    some ⟨y, dt.month, dt.day⟩
  else
    none

/-- LocalDate::with_month from local_date.rs line 598-600:
Month::try_from(month as u8) rejects values outside 1..=12 after the u8 cast,
then replace_month revalidates the day against the new month. -/
def LocalDate.with_month (dt : LocalDate) (m : Int) : Option LocalDate :=
  let mu := m % 256
  if 1 ≤ mu ∧ mu ≤ 12 ∧ dt.day ≤ daysInMonth dt.year mu then
    some ⟨dt.year, mu, dt.day⟩
  else
    none

/-- LocalDate::with_day_of_month from local_date.rs line 658-660:
replace_day(day as u8) revalidates the new day against the month; expect
modelled by none. -/
def LocalDate.with_day_of_month (dt : LocalDate) (d : Int) : Option LocalDate :=
  let du := d % 256
  if 1 ≤ du ∧ du ≤ daysInMonth dt.year dt.month then
    some ⟨dt.year, dt.month, du⟩
  else
    none

/-- LocalDate::with_day_of_year from local_date.rs lines 627-635: explicit
range check (day_of_year == 0 or beyond the year length panics, modelled by
none; the u16 parameter is never negative), then Jan 1 plus
(day_of_year - 1) days through the collaborator. -/
def LocalDate.with_day_of_year (dt : LocalDate) (doy : Int) : Option LocalDate :=
  if doy = 0 ∨ doy > Year.length dt.year then
    none
  else
    some (LocalDate.ofEpochDay (epochDayOfYmd dt.year 1 1 + (doy - 1)))

/-- Specification-side restatement of the plus_months rule for the refinement
comparison of claim C2, written from the spec text of section 4.3: compute
total_months = year*12 + (month-1) + n, decompose by Euclidean division into
new year and 1-based new month, then clamp the day to
min(original day, days_in_month(new_year, new_month)). -/
def plusMonthsSpec (dt : LocalDate) (n : Int) : LocalDate :=
  let total := dt.year * 12 + (dt.month - 1) + n
  let ny := total / 12
  let nm := total % 12 + 1
  ⟨ny, nm, min dt.day (daysInMonth ny nm)⟩

/-- A day of 86400 seconds in nanoseconds. -/
def dayNanos : Int := 86400000000000

/-- Largest total nanosecond value of a time::Duration
(i64 max seconds with 999999999 sub-second nanoseconds). -/
def durMaxNanos : Int := 9223372036854775807 * 1000000000 + 999999999

/-- Smallest total nanosecond value of a time::Duration
(i64 min seconds with -999999999 sub-second nanoseconds). -/
def durMinNanos : Int := -9223372036854775808 * 1000000000 - 999999999

/-- Duration from duration.rs: the wrapped time::Duration stores an i64
second count with a sign-matching sub-second nanosecond part; that pair is
represented here by its exact total nanosecond value.  A value is
representable exactly when the total lies between durMinNanos and
durMaxNanos. -/
def Duration.isValid (t : Int) : Prop :=
  durMinNanos ≤ t ∧ t ≤ durMaxNanos

instance (t : Int) : Decidable (Duration.isValid t) := by
  unfold Duration.isValid
  infer_instance

/-- Duration::of_seconds from duration.rs. -/
def Duration.of_seconds (s : Int) : Int := s * 1000000000

/-- Duration::of_days from duration.rs. -/
def Duration.of_days (d : Int) : Int := d * 86400000000000

/-- Duration::of_hours from duration.rs. -/
def Duration.of_hours (h : Int) : Int := h * 3600000000000

/-- Duration::of_minutes from duration.rs. -/
def Duration.of_minutes (m : Int) : Int := m * 60000000000

/-- Duration::of_milliseconds from duration.rs. -/
def Duration.of_milliseconds (ms : Int) : Int := ms * 1000000

/-- Duration::of_nanoseconds from duration.rs. -/
def Duration.of_nanoseconds (ns : Int) : Int := ns

/-- Saturating addition of the collaborator time::Duration: the exact total
clamped to the representable range, with Duration::MAX and Duration::MIN as
the saturation values. -/
def satAddNanos (a b : Int) : Int :=
  max durMinNanos (min durMaxNanos (a + b))

/-- Duration::plus from duration.rs lines 146-148: the + operator of
time::Duration is a checked addition that panics on overflow (modelled by
none). -/
def Duration.plus (a b : Int) : Option Int :=
  if Duration.isValid (a + b) then some (a + b) else none

/-- Duration::minus from duration.rs lines 150-152 (checked subtraction,
panics on overflow, modelled by none). -/
def Duration.minus (a b : Int) : Option Int :=
  if Duration.isValid (a - b) then some (a - b) else none

/-- Duration::plus_days from duration.rs line 154-156 (saturating_add). -/
def Duration.plus_days (a : Int) (d : Int) : Int :=
  satAddNanos a (Duration.of_days d)

/-- Duration::minus_days from duration.rs line 158-160 (saturating_sub). -/
def Duration.minus_days (a : Int) (d : Int) : Int :=
  satAddNanos a (-Duration.of_days d)

/-- Duration::plus_hours from duration.rs (saturating_add). -/
def Duration.plus_hours (a : Int) (h : Int) : Int :=
  satAddNanos a (Duration.of_hours h)

/-- Duration::minus_hours from duration.rs (saturating_sub). -/
def Duration.minus_hours (a : Int) (h : Int) : Int :=
  satAddNanos a (-Duration.of_hours h)

/-- Duration::plus_minutes from duration.rs (saturating_add). -/
def Duration.plus_minutes (a : Int) (m : Int) : Int :=
  satAddNanos a (Duration.of_minutes m)

/-- Duration::minus_minutes from duration.rs (saturating_sub). -/
def Duration.minus_minutes (a : Int) (m : Int) : Int :=
  satAddNanos a (-Duration.of_minutes m)

/-- Duration::plus_seconds from duration.rs (saturating_add). -/
def Duration.plus_seconds (a : Int) (s : Int) : Int :=
  satAddNanos a (Duration.of_seconds s)

/-- Duration::minus_seconds from duration.rs (saturating_sub). -/
def Duration.minus_seconds (a : Int) (s : Int) : Int :=
  satAddNanos a (-Duration.of_seconds s)

/-- Duration::plus_milliseconds from duration.rs (saturating_add). -/
def Duration.plus_milliseconds (a : Int) (ms : Int) : Int :=
  satAddNanos a (Duration.of_milliseconds ms)

/-- Duration::minus_milliseconds from duration.rs (saturating_sub). -/
def Duration.minus_milliseconds (a : Int) (ms : Int) : Int :=
  satAddNanos a (-Duration.of_milliseconds ms)

/-- Duration::plus_nanoseconds from duration.rs (saturating_add). -/
def Duration.plus_nanoseconds (a : Int) (ns : Int) : Int :=
  satAddNanos a (Duration.of_nanoseconds ns)

/-- Duration::minus_nanoseconds from duration.rs (saturating_sub). -/
def Duration.minus_nanoseconds (a : Int) (ns : Int) : Int :=
  satAddNanos a (-Duration.of_nanoseconds ns)

/-- LocalTime from local_time.rs: the wrapped time::Time is represented by
its hour / minute / second / nanosecond fields. -/
structure LocalTime where
  hour : Int
  minute : Int
  second : Int
  nanosecond : Int
deriving DecidableEq, Repr

/-- Field validity of a time::Time value (spec section 3). -/
def LocalTime.isValid (t : LocalTime) : Prop :=
  0 ≤ t.hour ∧ t.hour ≤ 23 ∧ 0 ≤ t.minute ∧ t.minute ≤ 59 ∧
    0 ≤ t.second ∧ t.second ≤ 59 ∧ 0 ≤ t.nanosecond ∧ t.nanosecond ≤ 999999999

instance (t : LocalTime) : Decidable t.isValid := by
  unfold LocalTime.isValid
  infer_instance

/-- Total nanoseconds since midnight of a LocalTime. -/
def LocalTime.toNanoOfDay (t : LocalTime) : Int :=
  ((t.hour * 60 + t.minute) * 60 + t.second) * 1000000000 + t.nanosecond

/-- Decomposition of a nanosecond-of-day count into time fields, as written
in LocalTime::of_total_nanos_of_day in local_time.rs lines 67-72. -/
def LocalTime.ofNanoOfDay (n : Int) : LocalTime :=
  let hour := n / 3600000000000
  let n1 := n % 3600000000000
  let minute := n1 / 60000000000
  let n2 := n1 % 60000000000
  let second := n2 / 1000000000
  let nano := n2 % 1000000000
  ⟨hour, minute, second, nano⟩

/-- LocalTime::new from local_time.rs line 31-33:
time::Time::from_hms(hour as u8, minute as u8, second as u8), expect
modelled by none; the "as u8" casts keep the low 8 bits. -/
def LocalTime.new (h m s : Int) : Option LocalTime :=
  let hu := h % 256
  let mu := m % 256
  let su := s % 256
  if hu ≤ 23 ∧ mu ≤ 59 ∧ su ≤ 59 then
    some ⟨hu, mu, su, 0⟩
  else
    none

/-- LocalTime::of from local_time.rs (alias of new). -/
def LocalTime.of (h m s : Int) : Option LocalTime :=
  LocalTime.new h m s

/-- LocalTime::of_hms_nano from local_time.rs lines 43-49:
u32::try_from(nanosecond) rejects negative values, then from_hms_nano
validates every field. -/
def LocalTime.of_hms_nano (h m s nano : Int) : Option LocalTime :=
  if nano < 0 then
    none
  else
    let hu := h % 256
    let mu := m % 256
    let su := s % 256
    if hu ≤ 23 ∧ mu ≤ 59 ∧ su ≤ 59 ∧ nano ≤ 999999999 then
      some ⟨hu, mu, su, nano⟩
    else
      none

/-- LocalTime::of_total_nanos_of_day from local_time.rs lines 60-74: Rust
truncating remainder by the day length, a conditional fixup making the
remainder non-negative, field decomposition, and a final validating
from_hms_nano whose unwrap is modelled by none. -/
def LocalTime.of_total_nanos_of_day (total : Int) : Option LocalTime :=
  let n0 := total.tmod 86400000000000
  let n := if n0 < 0 then n0 + 86400000000000 else n0
  let t := LocalTime.ofNanoOfDay n
  if t.isValid then some t else none

/-- LocalTime::of_second_of_day from local_time.rs lines 51-54. -/
def LocalTime.of_second_of_day (s : Int) : Option LocalTime :=
  LocalTime.of_total_nanos_of_day (s * 1000000000)

/-- LocalTime::of_nanosecond_of_day from local_time.rs lines 56-58. -/
def LocalTime.of_nanosecond_of_day (n : Int) : Option LocalTime :=
  LocalTime.of_total_nanos_of_day n

/-- Wrapping time-of-day addition of the collaborator: time::Time plus a
time::Duration wraps modulo 24 hours and discards the day carry (the
adjusting addition behind the Add and Sub impls used by the LocalTime
plus_* / minus_* methods in local_time.rs lines 240-278). -/
def timeAddNanos (t : LocalTime) (delta : Int) : LocalTime :=
  LocalTime.ofNanoOfDay ((t.toNanoOfDay + delta) % dayNanos)

/-- LocalTime::plus_hours from local_time.rs. -/
def LocalTime.plus_hours (t : LocalTime) (h : Int) : LocalTime :=
  timeAddNanos t (Duration.of_hours h)

/-- LocalTime::plus_minutes from local_time.rs. -/
def LocalTime.plus_minutes (t : LocalTime) (m : Int) : LocalTime :=
  timeAddNanos t (Duration.of_minutes m)

/-- LocalTime::plus_seconds from local_time.rs. -/
def LocalTime.plus_seconds (t : LocalTime) (s : Int) : LocalTime :=
  timeAddNanos t (Duration.of_seconds s)

/-- LocalTime::plus_milliseconds from local_time.rs. -/
def LocalTime.plus_milliseconds (t : LocalTime) (ms : Int) : LocalTime :=
  timeAddNanos t (Duration.of_milliseconds ms)

/-- LocalTime::plus_nanoseconds from local_time.rs. -/
def LocalTime.plus_nanoseconds (t : LocalTime) (ns : Int) : LocalTime :=
  timeAddNanos t (Duration.of_nanoseconds ns)

/-- LocalTime::minus_hours from local_time.rs. -/
def LocalTime.minus_hours (t : LocalTime) (h : Int) : LocalTime :=
  timeAddNanos t (-Duration.of_hours h)

/-- LocalTime::minus_minutes from local_time.rs. -/
def LocalTime.minus_minutes (t : LocalTime) (m : Int) : LocalTime :=
  timeAddNanos t (-Duration.of_minutes m)

/-- LocalTime::minus_seconds from local_time.rs. -/
def LocalTime.minus_seconds (t : LocalTime) (s : Int) : LocalTime :=
  timeAddNanos t (-Duration.of_seconds s)

/-- LocalTime::minus_milliseconds from local_time.rs. -/
def LocalTime.minus_milliseconds (t : LocalTime) (ms : Int) : LocalTime :=
  timeAddNanos t (-Duration.of_milliseconds ms)

/-- LocalTime::minus_nanoseconds from local_time.rs. -/
def LocalTime.minus_nanoseconds (t : LocalTime) (ns : Int) : LocalTime :=
  timeAddNanos t (-Duration.of_nanoseconds ns)

/-- LocalDateTime from local_date_time.rs: the wrapped
time::PrimitiveDateTime is a (date, time) pair. -/
structure LocalDateTime where
  date : LocalDate
  time : LocalTime
deriving DecidableEq, Repr

/-- LocalDateTime::of_date_time from local_date_time.rs. -/
def LocalDateTime.of_date_time (d : LocalDate) (t : LocalTime) : LocalDateTime :=
  ⟨d, t⟩

/-- Epoch nanoseconds of a LocalDateTime assumed at UTC offset, as computed
by LocalDateTime::epoch_nanoseconds in local_date_time.rs lines 245-247. -/
def LocalDateTime.epochNanos (dt : LocalDateTime) : Int :=
  dt.date.toEpochDay * dayNanos + dt.time.toNanoOfDay

/-- Carry-aware duration addition of the collaborator on the full
(date, time) pair: time::PrimitiveDateTime saturating_add advances the whole
timeline, carrying time overflow into the date (spec section 4.5); the
saturation at the bounded calendar range of the primitive is idealized
away together with that range. -/
def dtAddNanos (dt : LocalDateTime) (delta : Int) : LocalDateTime :=
  let total := dt.epochNanos + delta
  ⟨LocalDate.ofEpochDay (total / dayNanos), LocalTime.ofNanoOfDay (total % dayNanos)⟩

/-- LocalDateTime::plus_hours from local_date_time.rs lines 489-491. -/
def LocalDateTime.plus_hours (dt : LocalDateTime) (h : Int) : LocalDateTime :=
  dtAddNanos dt (Duration.of_hours h)

/-- LocalDateTime::plus_minutes from local_date_time.rs. -/
def LocalDateTime.plus_minutes (dt : LocalDateTime) (m : Int) : LocalDateTime :=
  dtAddNanos dt (Duration.of_minutes m)

/-- LocalDateTime::plus_seconds from local_date_time.rs. -/
def LocalDateTime.plus_seconds (dt : LocalDateTime) (s : Int) : LocalDateTime :=
  dtAddNanos dt (Duration.of_seconds s)

/-- LocalDateTime::plus_milliseconds from local_date_time.rs. -/
def LocalDateTime.plus_milliseconds (dt : LocalDateTime) (ms : Int) : LocalDateTime :=
  dtAddNanos dt (Duration.of_milliseconds ms)

/-- LocalDateTime::plus_nanoseconds from local_date_time.rs. -/
def LocalDateTime.plus_nanoseconds (dt : LocalDateTime) (ns : Int) : LocalDateTime :=
  dtAddNanos dt (Duration.of_nanoseconds ns)

/-- LocalDateTime::minus_hours from local_date_time.rs. -/
def LocalDateTime.minus_hours (dt : LocalDateTime) (h : Int) : LocalDateTime :=
  dtAddNanos dt (-Duration.of_hours h)

/-- LocalDateTime::minus_minutes from local_date_time.rs. -/
def LocalDateTime.minus_minutes (dt : LocalDateTime) (m : Int) : LocalDateTime :=
  dtAddNanos dt (-Duration.of_minutes m)

/-- LocalDateTime::minus_seconds from local_date_time.rs. -/
def LocalDateTime.minus_seconds (dt : LocalDateTime) (s : Int) : LocalDateTime :=
  dtAddNanos dt (-Duration.of_seconds s)

/-- LocalDateTime::minus_milliseconds from local_date_time.rs. -/
def LocalDateTime.minus_milliseconds (dt : LocalDateTime) (ms : Int) : LocalDateTime :=
  dtAddNanos dt (-Duration.of_milliseconds ms)

/-- LocalDateTime::minus_nanoseconds from local_date_time.rs. -/
def LocalDateTime.minus_nanoseconds (dt : LocalDateTime) (ns : Int) : LocalDateTime :=
  dtAddNanos dt (-Duration.of_nanoseconds ns)

/-- LocalDateTime::plus_days from local_date_time.rs line 485-487
(saturating_add of a whole-day duration on the timeline). -/
def LocalDateTime.plus_days (dt : LocalDateTime) (d : Int) : LocalDateTime :=
  dtAddNanos dt (Duration.of_days d)

/-- LocalDateTime::plus_months from local_date_time.rs lines 474-479:
date-component arithmetic with the time held fixed. -/
def LocalDateTime.plus_months (dt : LocalDateTime) (n : Int) : Option LocalDateTime :=
  (dt.date.plus_months n).map (fun d => ⟨d, dt.time⟩)

/-- LocalDateTime::plus_years from local_date_time.rs lines 467-472:
date-component arithmetic with the time held fixed. -/
def LocalDateTime.plus_years (dt : LocalDateTime) (n : Int) : Option LocalDateTime :=
  (dt.date.plus_years n).map (fun d => ⟨d, dt.time⟩)

/-- Instant from instant.rs: the wrapped time::OffsetDateTime is represented
by its epoch nanosecond value (Instant::epoch_nanoseconds, lines 180-184). -/
structure Instant where
  epochNanos : Int
deriving DecidableEq, Repr

/-- Instant::of_epoch_second from instant.rs lines 53-56. -/
def Instant.of_epoch_second (s : Int) : Instant :=
  ⟨s * 1000000000⟩

/-- Instant::epoch_nanoseconds from instant.rs lines 180-184. -/
def Instant.epoch_nanoseconds (i : Instant) : Int :=
  i.epochNanos

/-- ChronoUnit from chrono_unit.rs. -/
inductive ChronoUnit where
  | Nanos
  | Millis
  | Seconds
  | Minutes
  | Hours
  | HalfDays
  | Days
  | Weeks
  | Months
  | Years
deriving DecidableEq, Repr

/-- Fixed nanosecond length of each unit, from the match table inside
ChronoUnit::between in chrono_unit.rs lines 84-95. -/
def ChronoUnit.unitNanos : ChronoUnit → Int
  | .Nanos => 1
  | .Millis => 1000000
  | .Seconds => 1000000000
  | .Minutes => 60 * 1000000000
  | .Hours => 3600 * 1000000000
  | .HalfDays => 43200 * 1000000000
  | .Days => 86400 * 1000000000
  | .Weeks => 7 * 86400 * 1000000000
  | .Months => 30 * 86400 * 1000000000
  | .Years => 365 * 86400 * 1000000000

/-- The "as i64" cast of chrono_unit.rs line 96: an i128 value reduced into
the i64 range by two's-complement wrapping. -/
def wrapToI64 (x : Int) : Int :=
  (x + 9223372036854775808) % 18446744073709551616 - 9223372036854775808

/-- ChronoUnit::between from chrono_unit.rs lines 80-97 applied to two
temporals through their TemporalInstant epoch nanoseconds: the exact i128
difference, divided by the unit length with Rust truncating division, then
cast "as i64". -/
def ChronoUnit.between (u : ChronoUnit) (s e : Instant) : Int :=
  wrapToI64 ((e.epoch_nanoseconds - s.epoch_nanoseconds).tdiv u.unitNanos)

/-- Rust truncating division in terms of Euclidean division. -/
theorem tdiv_eq_ite (a b : Int) (hb : 0 < b) :
    a.tdiv b = if 0 ≤ a then a / b else -(-a / b) := by
  rcases le_or_lt 0 a with h | h
  · rw [if_pos h, Int.tdiv_eq_ediv h (le_of_lt hb)]
  · rw [if_neg (not_le.mpr h)]
    have h2 : a.tdiv b = -((-a).tdiv b) := by
      rw [← Int.neg_tdiv, neg_neg]
    rw [h2, Int.tdiv_eq_ediv (by omega) (le_of_lt hb)]

/-- Rust truncating remainder in terms of the Euclidean remainder. -/
theorem tmod_eq_ite (a b : Int) (hb : 0 < b) :
    a.tmod b = if 0 ≤ a then a % b else -(-a % b) := by
  rcases le_or_lt 0 a with h | h
  · rw [if_pos h, Int.tmod_def, tdiv_eq_ite a b hb, if_pos h, Int.emod_def]
  · rw [if_neg (not_le.mpr h), Int.tmod_def, tdiv_eq_ite a b hb, if_neg (not_le.mpr h),
      Int.emod_def]
    ring

/-- Arithmetic characterization of the leap-year test. -/
theorem is_leap_iff (y : Int) :
    Year.is_leap y = true ↔ (y % 4 = 0 ∧ (¬y % 100 = 0 ∨ y % 400 = 0)) := by
  simp [Year.is_leap, bne_iff_ne]

/-- Boolean equality through propositional equivalence. -/
theorem bool_eq_of_iff {a b : Bool} (h : a = true ↔ b = true) : a = b := by
  cases a <;> cases b <;> simp_all

/-- The leap-year test depends only on the residue class modulo 400. -/
theorem is_leap_shift (e w : Int) : Year.is_leap (400 * e + w) = Year.is_leap w := by
  apply bool_eq_of_iff
  rw [is_leap_iff, is_leap_iff]
  omega

/-- One-year step of the cumulative day count. -/
theorem dby_step (y : Int) :
    daysBeforeYear (y + 1) = daysBeforeYear y + 365 + (if Year.is_leap y then 1 else 0) := by
  have h := is_leap_iff y
  unfold daysBeforeYear
  rcases hb : Year.is_leap y with _ | _ <;> rw [hb] at h <;> simp_all <;> omega

/-- The cumulative day count grows by at least 365 per year. -/
theorem dby_lower (a b : Int) (h : a ≤ b) :
    daysBeforeYear a + 365 * (b - a) ≤ daysBeforeYear b := by
  unfold daysBeforeYear
  omega

/-- The cumulative day count grows by at most 366 per year. -/
theorem dby_upper (a b : Int) (h : a ≤ b) :
    daysBeforeYear b ≤ daysBeforeYear a + 366 * (b - a) := by
  unfold daysBeforeYear
  omega

/-- Era decomposition of the cumulative day count: one 400-year era has
146097 days. -/
theorem dby_era (e w : Int) :
    daysBeforeYear (400 * e + w) = 146097 * e + daysBeforeYear w := by
  unfold daysBeforeYear
  omega

/-- Correctness of the bracketed year-of-era lookup. -/
theorem yoe_bracket (doe : Int) (h0 : 0 ≤ doe) (h1 : doe < 146097) :
    0 ≤ yoeOfDoe doe ∧ yoeOfDoe doe ≤ 399 ∧
      daysBeforeYear (yoeOfDoe doe) ≤ doe ∧ doe < daysBeforeYear (yoeOfDoe doe + 1) := by
  simp only [yoeOfDoe, daysBeforeYear]
  split
  · omega
  · split <;> omega

set_option maxRecDepth 2000 in
/-- Finite table behind the month lookup correctness: checked for every
ordinal day of a leap or common year. -/
theorem month_table : ∀ n : Nat, n < 366 →
    ∀ leap : Bool, ((n : Int) < 365 + (if leap then 1 else 0)) →
      (1 ≤ monthOfDoy leap (n : Int) ∧ monthOfDoy leap (n : Int) ≤ 12 ∧
        daysBeforeMonth leap (monthOfDoy leap (n : Int)) ≤ (n : Int) ∧
        (n : Int) - daysBeforeMonth leap (monthOfDoy leap (n : Int)) + 1 ≤
          Month.length (monthOfDoy leap (n : Int)) leap) := by
  decide

/-- Correctness of the month lookup on an ordinal day of year. -/
theorem month_of_doy (leap : Bool) (doy : Int) (h0 : 0 ≤ doy)
    (h1 : doy < 365 + (if leap then 1 else 0)) :
    1 ≤ monthOfDoy leap doy ∧ monthOfDoy leap doy ≤ 12 ∧
      daysBeforeMonth leap (monthOfDoy leap doy) ≤ doy ∧
      doy - daysBeforeMonth leap (monthOfDoy leap doy) + 1 ≤ Month.length (monthOfDoy leap doy) leap := by
  have hn : ((doy.toNat : Int)) = doy := Int.toNat_of_nonneg h0
  have hlt : doy.toNat < 366 := by cases leap <;> simp at h1 <;> omega
  have hres := month_table doy.toNat hlt leap (by rw [hn]; exact h1)
  rw [hn] at hres
  exact hres

/-- Unfolded form of the epoch-day to date conversion. -/
theorem ofEpochDay_eq (z : Int) :
    LocalDate.ofEpochDay z =
      { year := 400 * ((z + 719528) / 146097) + yoeOfDoe ((z + 719528) % 146097),
        month := monthOfDoy
          (Year.is_leap (400 * ((z + 719528) / 146097) + yoeOfDoe ((z + 719528) % 146097)))
          ((z + 719528) % 146097 - daysBeforeYear (yoeOfDoe ((z + 719528) % 146097))),
        day := (z + 719528) % 146097 - daysBeforeYear (yoeOfDoe ((z + 719528) % 146097)) -
          daysBeforeMonth
            (Year.is_leap (400 * ((z + 719528) / 146097) + yoeOfDoe ((z + 719528) % 146097)))
            (monthOfDoy
              (Year.is_leap (400 * ((z + 719528) / 146097) + yoeOfDoe ((z + 719528) % 146097)))
              ((z + 719528) % 146097 - daysBeforeYear (yoeOfDoe ((z + 719528) % 146097)))) + 1 } :=
  rfl

/-- Every date produced by the epoch-day conversion is calendar-valid. -/
theorem ofEpochDay_valid (z : Int) : (LocalDate.ofEpochDay z).isValid := by
  rw [ofEpochDay_eq z]
  set zd := z + 719528 with hzd
  have h0 : 0 ≤ zd % 146097 := Int.emod_nonneg zd (by norm_num)
  have h1 : zd % 146097 < 146097 := Int.emod_lt_of_pos zd (by norm_num)
  set doe := zd % 146097 with hdoe
  set era := zd / 146097 with hera
  obtain ⟨hy0, hy399, hlo, hhi⟩ := yoe_bracket doe h0 h1
  set yoe := yoeOfDoe doe with hyoe
  set y := 400 * era + yoe with hy
  have hleap : Year.is_leap y = Year.is_leap yoe := is_leap_shift era yoe
  have hstep := dby_step yoe
  set doy := doe - daysBeforeYear yoe with hdoy
  have hd0 : 0 ≤ doy := by omega
  have hd1 : doy < 365 + (if Year.is_leap y then 1 else 0) := by
    rw [hleap]
    rcases hb : Year.is_leap yoe <;> rw [hb] at hstep <;> simp at hstep ⊢ <;> omega
  obtain ⟨hm1, hm12, hmlo, hmhi⟩ := month_of_doy (Year.is_leap y) doy hd0 hd1
  unfold LocalDate.isValid daysInMonth
  dsimp only
  refine ⟨hm1, hm12, by omega, by omega⟩

/-- The epoch-day conversion pair is a section: converting an epoch day to a
civil date and back returns the same epoch day. -/
theorem toEpochDay_ofEpochDay (z : Int) : (LocalDate.ofEpochDay z).toEpochDay = z := by
  rw [ofEpochDay_eq z]
  unfold LocalDate.toEpochDay epochDayOfYmd
  set zd := z + 719528 with hzd
  set doe := zd % 146097 with hdoe
  set era := zd / 146097 with hera
  set yoe := yoeOfDoe doe with hyoe
  have hdby : daysBeforeYear (400 * era + yoe) = 146097 * era + daysBeforeYear yoe :=
    dby_era era yoe
  have hdm := Int.ediv_add_emod zd 146097
  simp only
  omega

/-- January 1 contributes no days-before-month offset. -/
theorem dbm_one (leap : Bool) : daysBeforeMonth leap 1 = 0 := by
  cases leap <;> rfl

/-- The days-before-year count of the year 0 is zero. -/
theorem dby_zero : daysBeforeYear 0 = 0 := by decide

/-- The days-before-year count of the year 400 is one full era. -/
theorem dby_four_hundred : daysBeforeYear 400 = 146097 := by decide

/-- Converting an epoch day that lies k days after January 1 of year y
(with k inside the year) yields a date in year y with 1-based ordinal
k + 1. -/
theorem ofEpochDay_year_offset (y k : Int) (h0 : 0 ≤ k)
    (h1 : k < 365 + (if Year.is_leap y then 1 else 0)) :
    (LocalDate.ofEpochDay (epochDayOfYmd y 1 1 + k)).year = y ∧
      (LocalDate.ofEpochDay (epochDayOfYmd y 1 1 + k)).day_of_year = k + 1 := by
  have hq := Int.ediv_add_emod y 400
  have hw0 : 0 ≤ y % 400 := Int.emod_nonneg y (by norm_num)
  have hw1 : y % 400 < 400 := Int.emod_lt_of_pos y (by norm_num)
  set q := y / 400 with hqdef
  set w := y % 400 with hwdef
  have hysplit : y = 400 * q + w := by omega
  have hDy : daysBeforeYear y = 146097 * q + daysBeforeYear w := by
    rw [hysplit]; exact dby_era q w
  have hleapw : Year.is_leap y = Year.is_leap w := by
    rw [hysplit]; exact is_leap_shift q w
  have hDw0 : 0 ≤ daysBeforeYear w := by
    have := dby_lower 0 w hw0
    rw [dby_zero] at this
    omega
  have hstepw := dby_step w
  have hup : daysBeforeYear (w + 1) ≤ 146097 := by
    have := dby_lower (w + 1) 400 (by omega)
    rw [dby_four_hundred] at this
    omega
  have hbound : 0 ≤ daysBeforeYear w + k ∧ daysBeforeYear w + k < 146097 := by
    rw [hleapw] at h1
    rcases hb : Year.is_leap w <;> rw [hb] at h1 hstepw <;> simp at h1 hstepw <;> omega
  have hz : epochDayOfYmd y 1 1 + k + 719528 = 146097 * q + (daysBeforeYear w + k) := by
    unfold epochDayOfYmd
    rw [dbm_one, hDy]
    omega
  rw [ofEpochDay_eq]
  set zd := epochDayOfYmd y 1 1 + k + 719528 with hzd
  have hera : zd / 146097 = q := by omega
  have hdoe : zd % 146097 = daysBeforeYear w + k := by omega
  rw [hera, hdoe]
  have hbr := yoe_bracket (daysBeforeYear w + k) hbound.1 hbound.2
  have hyoew : yoeOfDoe (daysBeforeYear w + k) = w := by
    obtain ⟨hb0, hb399, hblo, hbhi⟩ := hbr
    set u := yoeOfDoe (daysBeforeYear w + k) with hu
    rcases lt_trichotomy u w with hlt | heq | hgt
    · have := dby_lower (u + 1) w (by omega)
      rw [hleapw] at h1
      rcases hb : Year.is_leap w <;> rw [hb] at h1 <;> simp at h1 <;> omega
    · exact heq
    · have := dby_lower (w + 1) u (by omega)
      rw [hleapw] at h1
      rcases hb : Year.is_leap w <;> rw [hb] at h1 hstepw <;> simp at h1 hstepw <;> omega
  rw [hyoew]
  constructor
  · dsimp only
    omega
  · unfold LocalDate.day_of_year
    dsimp only
    omega

/-- The first carry loop stops with a month value of at most 12. -/
theorem carryUp_le (y m : Int) : (carryMonthsUp y m).2 ≤ 12 := by
  induction y, m using carryMonthsUp.induct with
  | case1 y m h ih => rw [carryMonthsUp, if_pos h]; exact ih
  | case2 y m h => rw [carryMonthsUp, if_neg h]; omega

/-- The first carry loop preserves the total month index. -/
theorem carryUp_inv (y m : Int) :
    (carryMonthsUp y m).1 * 12 + (carryMonthsUp y m).2 = y * 12 + m := by
  induction y, m using carryMonthsUp.induct with
  | case1 y m h ih => rw [carryMonthsUp, if_pos h]; omega
  | case2 y m h => rw [carryMonthsUp, if_neg h]

/-- The first carry loop never lowers a month value below 1. -/
theorem carryUp_ge (y m : Int) (h1 : 1 ≤ m) : 1 ≤ (carryMonthsUp y m).2 := by
  induction y, m using carryMonthsUp.induct with
  | case1 y m h ih => rw [carryMonthsUp, if_pos h]; exact ih (by omega)
  | case2 y m h => rw [carryMonthsUp, if_neg h]; omega

/-- The second carry loop stops with a month value of at least 1. -/
theorem carryDown_ge (y m : Int) : 1 ≤ (carryMonthsDown y m).2 := by
  induction y, m using carryMonthsDown.induct with
  | case1 y m h ih => rw [carryMonthsDown, if_pos h]; exact ih
  | case2 y m h => rw [carryMonthsDown, if_neg h]; omega

/-- The second carry loop never raises a month value above 12. -/
theorem carryDown_le (y m : Int) (h1 : m ≤ 12) : (carryMonthsDown y m).2 ≤ 12 := by
  induction y, m using carryMonthsDown.induct with
  | case1 y m h ih => rw [carryMonthsDown, if_pos h]; exact ih (by omega)
  | case2 y m h => rw [carryMonthsDown, if_neg h]; omega

/-- The second carry loop preserves the total month index. -/
theorem carryDown_inv (y m : Int) :
    (carryMonthsDown y m).1 * 12 + (carryMonthsDown y m).2 = y * 12 + m := by
  induction y, m using carryMonthsDown.induct with
  | case1 y m h ih => rw [carryMonthsDown, if_pos h]; omega
  | case2 y m h => rw [carryMonthsDown, if_neg h]

/-- Finite table of month lengths for the valid month numbers. -/
theorem month_length_table : ∀ n : Nat, n < 13 → ∀ leap : Bool,
    1 ≤ Month.length (n : Int) leap ∧ Month.length (n : Int) leap ≤ 31 ∧
      (n ≠ 2 → Month.length (n : Int) leap = Month.length (n : Int) false) ∧
      Month.length (n : Int) true ≤ Month.length (n : Int) leap + 1 := by
  decide

/-- Every valid month number has a length between 1 and 31. -/
theorem month_length_bounds (m : Int) (leap : Bool) (h1 : 1 ≤ m) (h2 : m ≤ 12) :
    1 ≤ Month.length m leap ∧ Month.length m leap ≤ 31 := by
  have hn : ((m.toNat : Int)) = m := Int.toNat_of_nonneg (by omega)
  have h := month_length_table m.toNat (by omega) leap
  rw [hn] at h
  exact ⟨h.1, h.2.1⟩

/-- LocalDate::plus_months agrees with the Euclidean decompose-and-clamp
rule of the specification and always produces a valid date. -/
theorem plus_months_eq (dt : LocalDate) (n : Int) (hv : dt.isValid) :
    dt.plus_months n = some (plusMonthsSpec dt n) ∧ (plusMonthsSpec dt n).isValid := by
  obtain ⟨hm1, hm12, hd1, hd31⟩ := hv
  have hup_le := carryUp_le dt.year (dt.month + n)
  have hup_inv := carryUp_inv dt.year (dt.month + n)
  have hdn_ge := carryDown_ge (carryMonthsUp dt.year (dt.month + n)).1
    (carryMonthsUp dt.year (dt.month + n)).2
  have hdn_le := carryDown_le (carryMonthsUp dt.year (dt.month + n)).1
    (carryMonthsUp dt.year (dt.month + n)).2 hup_le
  have hdn_inv := carryDown_inv (carryMonthsUp dt.year (dt.month + n)).1
    (carryMonthsUp dt.year (dt.month + n)).2
  set p := carryMonthsUp dt.year (dt.month + n) with hp
  set q := carryMonthsDown p.1 p.2 with hq
  have htot : q.1 * 12 + q.2 = dt.year * 12 + dt.month + n := by omega
  set total := dt.year * 12 + (dt.month - 1) + n with htotal
  have hy : q.1 = total / 12 := by omega
  have hm : q.2 = total % 12 + 1 := by omega
  have hlen := month_length_bounds q.2 (Year.is_leap q.1) (by omega) (by omega)
  have hdb31 : dt.day ≤ 31 := by
    have := month_length_bounds dt.month (Year.is_leap dt.year) hm1 hm12
    unfold daysInMonth at hd31
    omega
  unfold LocalDate.plus_months LocalDate.new plusMonthsSpec
  simp only
  rw [← hp, ← hq]
  have hmu : q.2 % 256 = q.2 := Int.emod_eq_of_lt (by omega) (by omega)
  have hdu : min dt.day (Month.length q.2 (Year.is_leap q.1)) % 256 =
      min dt.day (Month.length q.2 (Year.is_leap q.1)) := by
    rcases min_cases dt.day (Month.length q.2 (Year.is_leap q.1)) with ⟨he, _⟩ | ⟨he, _⟩ <;>
      rw [he] <;> exact Int.emod_eq_of_lt (by omega) (by omega)
  rw [hmu, hdu]
  rw [if_pos]
  · constructor
    · simp only [Option.some.injEq, LocalDate.mk.injEq]
      refine ⟨by omega, by omega, ?_⟩
      unfold daysInMonth
      rw [hy, hm]
    · unfold LocalDate.isValid daysInMonth
      simp only
      constructor
      · omega
      constructor
      · omega
      constructor
      · rw [← hy, ← hm]; omega
      · rw [← hy, ← hm]; omega
  · refine ⟨by omega, by omega, ?_, ?_⟩
    · rcases min_cases dt.day (Month.length q.2 (Year.is_leap q.1)) with ⟨he, _⟩ | ⟨he, _⟩ <;>
        (rw [he]; all_goals omega)
    · unfold daysInMonth
      rcases min_cases dt.day (Month.length q.2 (Year.is_leap q.1)) with ⟨he, hc⟩ | ⟨he, hc⟩ <;>
        (rw [he]; all_goals omega)

/-- February length for each leapness. -/
theorem feb_length : ∀ leap : Bool, Month.length 2 leap = if leap then 29 else 28 := by
  decide

/-- Month lengths outside February do not depend on the year. -/
theorem month_length_indep (m : Int) (h1 : 1 ≤ m) (h2 : m ≤ 12) (hne : ¬m = 2)
    (l1 l2 : Bool) : Month.length m l1 = Month.length m l2 := by
  have hn : ((m.toNat : Int)) = m := Int.toNat_of_nonneg (by omega)
  have ha := month_length_table m.toNat (by omega) l1
  have hb := month_length_table m.toNat (by omega) l2
  rw [hn] at ha hb
  have hne2 : m.toNat ≠ 2 := by omega
  rw [ha.2.2.1 hne2, hb.2.2.1 hne2]

/-- LocalDate::minus_months always succeeds on a valid date and produces a
valid date. -/
theorem minus_months_some (dt : LocalDate) (n : Int) (hv : dt.isValid) :
    ∃ e, dt.minus_months n = some e ∧ e.isValid ∧
      e.year = (dt.year * 12 + (dt.month - 1) - n).tdiv 12 ∧
      e.month = ((dt.year * 12 + (dt.month - 1) - n).tmod 12 + 12) % 12 + 1 ∧
      e.day = min dt.day (daysInMonth e.year e.month) := by
  obtain ⟨hm1, hm12, hd1, hd31⟩ := hv
  set tm := dt.year * 12 + (dt.month - 1) - n with htm
  have htmod := tmod_eq_ite tm 12 (by norm_num)
  have hb1 : 0 ≤ tm % 12 := Int.emod_nonneg tm (by norm_num)
  have hb2 : tm % 12 < 12 := Int.emod_lt_of_pos tm (by norm_num)
  have hb3 : 0 ≤ (-tm) % 12 := Int.emod_nonneg (-tm) (by norm_num)
  have hb4 : (-tm) % 12 < 12 := Int.emod_lt_of_pos (-tm) (by norm_num)
  have hmodb : -12 < tm.tmod 12 ∧ tm.tmod 12 < 12 := by
    rcases le_or_lt 0 tm with h | h
    · rw [htmod, if_pos h]; omega
    · rw [htmod, if_neg (not_le.mpr h)]; omega
  set month := (tm.tmod 12 + 12) % 12 + 1 with hmonth
  have hmb : 1 ≤ month ∧ month ≤ 12 := by
    have e1 : 0 ≤ (tm.tmod 12 + 12) % 12 := Int.emod_nonneg _ (by norm_num)
    have e2 : (tm.tmod 12 + 12) % 12 < 12 := Int.emod_lt_of_pos _ (by norm_num)
    omega
  set year := tm.tdiv 12 with hyear
  have hlen := month_length_bounds month (Year.is_leap year) hmb.1 hmb.2
  have hdb31 : dt.day ≤ 31 := by
    have := month_length_bounds dt.month (Year.is_leap dt.year) hm1 hm12
    unfold daysInMonth at hd31
    omega
  refine ⟨⟨year, month, min dt.day (Month.length month (Year.is_leap year))⟩, ?_, ?_, ?_, ?_, ?_⟩
  · unfold LocalDate.minus_months LocalDate.new
    simp only
    rw [← htm, ← hmonth, ← hyear]
    have hmu : month % 256 = month := Int.emod_eq_of_lt (by omega) (by omega)
    have hdu : min dt.day (Month.length month (Year.is_leap year)) % 256 =
        min dt.day (Month.length month (Year.is_leap year)) := by
      rcases min_cases dt.day (Month.length month (Year.is_leap year)) with ⟨he, _⟩ | ⟨he, _⟩ <;>
        rw [he] <;> exact Int.emod_eq_of_lt (by omega) (by omega)
    rw [hmu, hdu, if_pos]
    refine ⟨by omega, by omega, ?_, ?_⟩
    · rcases min_cases dt.day (Month.length month (Year.is_leap year)) with ⟨he, _⟩ | ⟨he, _⟩ <;>
        (rw [he]; all_goals omega)
    · unfold daysInMonth
      rcases min_cases dt.day (Month.length month (Year.is_leap year)) with ⟨he, hc⟩ | ⟨he, hc⟩ <;>
        (rw [he]; all_goals omega)
  · unfold LocalDate.isValid daysInMonth
    simp only
    refine ⟨hmb.1, hmb.2, ?_, ?_⟩
    · rcases min_cases dt.day (Month.length month (Year.is_leap year)) with ⟨he, _⟩ | ⟨he, _⟩ <;>
        (rw [he]; all_goals omega)
    · rcases min_cases dt.day (Month.length month (Year.is_leap year)) with ⟨he, hc⟩ | ⟨he, hc⟩ <;>
        (rw [he]; all_goals omega)
  · rfl
  · rfl
  · unfold daysInMonth
    rfl

/-- Characterization of LocalDate::plus_years on a valid date: fatal error
exactly on i32 year overflow, otherwise the month is preserved and only a
February 29 day is clamped (to 28) on a non-leap target year. -/
theorem plus_years_eq (dt : LocalDate) (n : Int) (hv : dt.isValid) :
    (dt.year + n > 2147483647 ∨ dt.year + n < -2147483648 → dt.plus_years n = none) ∧
    (dt.year + n ≤ 2147483647 → -2147483648 ≤ dt.year + n →
      dt.plus_years n = some ⟨dt.year + n, dt.month,
        if dt.month = 2 ∧ dt.day = 29 ∧ Year.is_leap (dt.year + n) = false then 28
        else dt.day⟩ ∧
      (⟨dt.year + n, dt.month,
        if dt.month = 2 ∧ dt.day = 29 ∧ Year.is_leap (dt.year + n) = false then 28
        else dt.day⟩ : LocalDate).isValid) := by
  obtain ⟨hm1, hm12, hd1, hd31⟩ := hv
  have hdb31 : dt.day ≤ 31 := by
    have := month_length_bounds dt.month (Year.is_leap dt.year) hm1 hm12
    unfold daysInMonth at hd31
    omega
  constructor
  · intro hover
    unfold LocalDate.plus_years
    rw [if_pos (by omega)]
  · intro hr1 hr2
    have hvalid : (⟨dt.year + n, dt.month,
        if dt.month = 2 ∧ dt.day = 29 ∧ Year.is_leap (dt.year + n) = false then 28
        else dt.day⟩ : LocalDate).isValid := by
      unfold LocalDate.isValid daysInMonth
      simp only
      by_cases hc : dt.month = 2 ∧ dt.day = 29 ∧ Year.is_leap (dt.year + n) = false
      · rw [if_pos hc]
        obtain ⟨hc2, hc29, hcl⟩ := hc
        rw [hc2, feb_length, hcl]
        norm_num
      · rw [if_neg hc]
        refine ⟨hm1, hm12, hd1, ?_⟩
        by_cases h2 : dt.month = 2
        · have hle : dt.day ≤ 29 := by
            rw [h2] at hd31
            unfold daysInMonth at hd31
            rcases hl : Year.is_leap dt.year <;> rw [hl] at hd31 <;>
              rw [feb_length] at hd31 <;> simp at hd31 <;> omega
          rw [h2, feb_length]
          rcases hl : Year.is_leap (dt.year + n) with _ | _
          · have h29 : ¬dt.day = 29 := by
              intro hd
              exact hc ⟨h2, hd, hl⟩
            simp
            omega
          · simp
            omega
        · unfold daysInMonth at hd31
          rw [month_length_indep dt.month hm1 hm12 h2 (Year.is_leap (dt.year + n))
            (Year.is_leap dt.year)]
          exact hd31
    constructor
    · unfold LocalDate.plus_years
      rw [if_neg (by omega)]
      unfold LocalDate.new
      simp only
      unfold LocalDate.isValid at hvalid
      simp only at hvalid
      have hday31 : (if dt.month = 2 ∧ dt.day = 29 ∧ Year.is_leap (dt.year + n) = false then (28 : Int)
          else dt.day) ≤ 31 := by
        split <;> omega
      have hday1 : (1 : Int) ≤ (if dt.month = 2 ∧ dt.day = 29 ∧ Year.is_leap (dt.year + n) = false
          then (28 : Int) else dt.day) := by
        split <;> omega
      have hmu : dt.month % 256 = dt.month := Int.emod_eq_of_lt (by omega) (by omega)
      have hdu : (if dt.month = 2 ∧ dt.day = 29 ∧ Year.is_leap (dt.year + n) = false then (28 : Int)
          else dt.day) % 256 =
          (if dt.month = 2 ∧ dt.day = 29 ∧ Year.is_leap (dt.year + n) = false then (28 : Int)
          else dt.day) := Int.emod_eq_of_lt (by omega) (by omega)
      rw [hmu, hdu, if_pos]
      exact ⟨by omega, by omega, hday1, by omega⟩
    · exact hvalid

/-- The time-of-day decomposition inverts the nanosecond-of-day count and
yields in-range fields. -/
theorem ofNano_roundtrip (n : Int) (h0 : 0 ≤ n) (h1 : n < dayNanos) :
    (LocalTime.ofNanoOfDay n).toNanoOfDay = n ∧ (LocalTime.ofNanoOfDay n).isValid := by
  unfold LocalTime.ofNanoOfDay LocalTime.toNanoOfDay LocalTime.isValid dayNanos at *
  simp only
  omega

/-- The wrapping time-of-day addition of the collaborator realizes Euclidean
reduction modulo one day and keeps the fields in range. -/
theorem timeAddNanos_eq (t : LocalTime) (delta : Int) :
    (timeAddNanos t delta).toNanoOfDay = (t.toNanoOfDay + delta) % dayNanos ∧
      (timeAddNanos t delta).isValid := by
  unfold timeAddNanos
  exact ofNano_roundtrip ((t.toNanoOfDay + delta) % dayNanos)
    (Int.emod_nonneg _ (by norm_num [dayNanos]))
    (Int.emod_lt_of_pos _ (by norm_num [dayNanos]))

/-- LocalTime::of_total_nanos_of_day never fails and returns the Euclidean
remainder of the input modulo one day. -/
theorem of_total_nanos_eq (total : Int) :
    LocalTime.of_total_nanos_of_day total =
      some (LocalTime.ofNanoOfDay (total % 86400000000000)) := by
  have htm := tmod_eq_ite total 86400000000000 (by norm_num)
  have hb1 : 0 ≤ total % 86400000000000 := Int.emod_nonneg total (by norm_num)
  have hb2 : total % 86400000000000 < 86400000000000 := Int.emod_lt_of_pos total (by norm_num)
  have hb3 : 0 ≤ (-total) % 86400000000000 := Int.emod_nonneg (-total) (by norm_num)
  have hb4 : (-total) % 86400000000000 < 86400000000000 :=
    Int.emod_lt_of_pos (-total) (by norm_num)
  have hsum : total % 86400000000000 + (-total) % 86400000000000 = 0 ∨
      total % 86400000000000 + (-total) % 86400000000000 = 86400000000000 := by
    omega
  unfold LocalTime.of_total_nanos_of_day
  have hfix : (if total.tmod 86400000000000 < 0 then total.tmod 86400000000000 + 86400000000000
      else total.tmod 86400000000000) = total % 86400000000000 := by
    rcases le_or_lt 0 total with h | h
    · rw [htm, if_pos h] at *
      rw [if_neg (by omega)]
    · rw [htm, if_neg (not_le.mpr h)] at *
      rcases eq_or_lt_of_le hb3 with he | hlt
    
      · rw [if_neg (by omega)]
        omega
      · rw [if_pos (by omega)]
        omega
  simp only
  rw [hfix]
  have hval := (ofNano_roundtrip (total % 86400000000000) hb1 (by unfold dayNanos; omega)).2
  rw [if_pos hval]

/-- Saturating duration addition keeps every value in the representable
range and fixes the boundaries. -/
theorem satAdd_bounds (a b : Int) :
    Duration.isValid (satAddNanos a b) ∧
      (durMaxNanos ≤ a + b → satAddNanos a b = durMaxNanos) ∧
      (a + b ≤ durMinNanos → satAddNanos a b = durMinNanos) ∧
      (Duration.isValid (a + b) → satAddNanos a b = a + b) := by
  unfold Duration.isValid satAddNanos durMaxNanos durMinNanos at *
  refine ⟨⟨?_, ?_⟩, ?_, ?_, ?_⟩ <;> simp [le_max_iff, min_le_iff, max_le_iff, le_min_iff] <;> omega

/-- The i64 wrap is the identity on the representable range. -/
theorem wrap_id (x : Int) (h1 : -9223372036854775808 ≤ x) (h2 : x ≤ 9223372036854775807) :
    wrapToI64 x = x := by
  unfold wrapToI64
  have : (x + 9223372036854775808) % 18446744073709551616 = x + 9223372036854775808 :=
    Int.emod_eq_of_lt (by omega) (by omega)
  omega

/-- The carry-aware timeline addition shifts the epoch nanosecond value of a
LocalDateTime exactly by the added amount, carrying across day boundaries
into the date component. -/
theorem dtAddNanos_eq (dt : LocalDateTime) (delta : Int) :
    (dtAddNanos dt delta).epochNanos = dt.epochNanos + delta := by
  unfold dtAddNanos LocalDateTime.epochNanos
  simp only
  rw [toEpochDay_ofEpochDay]
  have hb1 : 0 ≤ (dt.date.toEpochDay * dayNanos + dt.time.toNanoOfDay + delta) % dayNanos :=
    Int.emod_nonneg _ (by norm_num [dayNanos])
  have hb2 : (dt.date.toEpochDay * dayNanos + dt.time.toNanoOfDay + delta) % dayNanos < dayNanos :=
    Int.emod_lt_of_pos _ (by norm_num [dayNanos])
  rw [(ofNano_roundtrip _ hb1 hb2).1]
  have hdm := Int.ediv_add_emod (dt.date.toEpochDay * dayNanos + dt.time.toNanoOfDay + delta)
    dayNanos
  have hd : dayNanos = 86400000000000 := rfl
  rw [hd] at hdm hb1 hb2 ⊢
  omega

/-- C1: the spec says minus_months is defined as plus_months of the negated
amount with no independent logic path.  The code has an independent path
built on truncating division, and it diverges from plus_months whenever the
total month index becomes negative: on 0001-06-15, plus_months(-20) gives
-0001-10-15 while minus_months(20) gives 0000-10-15, so subtracting 20
months lands a full year late.  The years half of the law holds:
minus_years is literally plus_years of the negation. -/
theorem c1_minus_months_divergence :
    LocalDate.plus_months ⟨1, 6, 15⟩ (-20) = some ⟨-1, 10, 15⟩ ∧
    LocalDate.minus_months ⟨1, 6, 15⟩ 20 = some ⟨0, 10, 15⟩ ∧
    LocalDate.plus_months ⟨1, 6, 15⟩ (-20) ≠ LocalDate.minus_months ⟨1, 6, 15⟩ 20 ∧
    (∀ dt : LocalDate, ∀ n : Int, dt.minus_years n = dt.plus_years (-n)) := by
  have h := (plus_months_eq ⟨1, 6, 15⟩ (-20) (by decide)).1
  have hspec : plusMonthsSpec ⟨1, 6, 15⟩ (-20) = ⟨-1, 10, 15⟩ := by decide
  have hm : LocalDate.minus_months ⟨1, 6, 15⟩ 20 = some ⟨0, 10, 15⟩ := by decide
  refine ⟨by rw [h, hspec], hm, ?_, fun dt n => rfl⟩
  rw [h, hspec, hm]
  decide

/-- C2: on every valid date, plus_months computes the Euclidean
decomposition of the target month index and clamps the day of month to the
length of the target month; it never fails and never rolls into the
following month. -/
theorem c2_plus_months_clamp (dt : LocalDate) (n : Int) (hv : dt.isValid) :
    dt.plus_months n = some (plusMonthsSpec dt n) :=
  (plus_months_eq dt n hv).1

/-- Witness for C2 at the end-of-month clamp examples of the spec. -/
theorem c2_witness :
    LocalDate.plus_months ⟨2020, 1, 31⟩ 1 = some ⟨2020, 2, 29⟩ ∧
    LocalDate.plus_months ⟨2019, 1, 31⟩ 1 = some ⟨2019, 2, 28⟩ := by
  constructor
  · rw [c2_plus_months_clamp ⟨2020, 1, 31⟩ 1 (by decide)]
    decide
  · rw [c2_plus_months_clamp ⟨2019, 1, 31⟩ 1 (by decide)]
    decide

/-- C3 counterexample: at the duration whose seconds are i64::MAX (with zero
sub-second nanoseconds, as Duration::of_seconds builds it), plus_days(1)
saturates to Duration::MAX, which carries 999999999 nanoseconds and is a
different value, so d.plus_days(1) == d fails; and the general plus is a
checked addition that fails (panics) on overflow instead of saturating. -/
theorem c3_counterexample :
    Duration.plus_days (Duration.of_seconds 9223372036854775807) 1 ≠
      Duration.of_seconds 9223372036854775807 ∧
    Duration.plus (Duration.of_seconds 9223372036854775807) (Duration.of_seconds 1) = none := by
  constructor
  · decide
  · decide

/-- C3 as amended: the per-unit plus_X/minus_X operations saturate at the
representable boundary values Duration::MIN/Duration::MAX and always produce
representable values; the saturated boundary value itself is idempotent
under further same-direction per-unit addition, in particular
Duration::MAX.plus_days(1) == Duration::MAX and adding another 10000 days
still gives Duration::MAX.  The binary
plus/minus are not saturating: they fail on overflow. -/
theorem c3_saturation (a n : Int) :
    (Duration.isValid (Duration.plus_days a n) ∧ Duration.isValid (Duration.minus_days a n) ∧
      Duration.isValid (Duration.plus_hours a n) ∧ Duration.isValid (Duration.minus_hours a n) ∧
      Duration.isValid (Duration.plus_minutes a n) ∧
      Duration.isValid (Duration.minus_minutes a n) ∧
      Duration.isValid (Duration.plus_seconds a n) ∧
      Duration.isValid (Duration.minus_seconds a n) ∧
      Duration.isValid (Duration.plus_milliseconds a n) ∧
      Duration.isValid (Duration.minus_milliseconds a n) ∧
      Duration.isValid (Duration.plus_nanoseconds a n) ∧
      Duration.isValid (Duration.minus_nanoseconds a n)) ∧
    (0 ≤ n → Duration.plus_days durMaxNanos n = durMaxNanos ∧
      Duration.minus_days durMinNanos n = durMinNanos) ∧
    Duration.plus_days durMaxNanos 1 = durMaxNanos ∧
    Duration.plus_days (Duration.plus_days durMaxNanos 1) 10000 = durMaxNanos ∧
    (durMaxNanos < a + n → Duration.plus a n = none) ∧
    (a - n < durMinNanos → Duration.minus a n = none) := by
  refine ⟨⟨(satAdd_bounds a _).1, (satAdd_bounds a _).1, (satAdd_bounds a _).1,
      (satAdd_bounds a _).1, (satAdd_bounds a _).1, (satAdd_bounds a _).1,
      (satAdd_bounds a _).1, (satAdd_bounds a _).1, (satAdd_bounds a _).1,
      (satAdd_bounds a _).1, (satAdd_bounds a _).1, (satAdd_bounds a _).1⟩, ?_, ?_, ?_, ?_, ?_⟩
  · intro hn
    constructor
    · refine (satAdd_bounds durMaxNanos (Duration.of_days n)).2.1 ?_
      unfold Duration.of_days
      omega
    · refine (satAdd_bounds durMinNanos (-Duration.of_days n)).2.2.1 ?_
      unfold Duration.of_days
      omega
  · decide
  · decide
  · intro hover
    unfold Duration.plus
    rw [if_neg]
    unfold Duration.isValid
    omega
  · intro hover
    unfold Duration.minus
    rw [if_neg]
    unfold Duration.isValid
    omega

/-- Witness for C3 saturating at both boundaries. -/
theorem c3_witness :
    Duration.plus_days durMaxNanos 10000 = durMaxNanos ∧
    Duration.minus_days durMinNanos 10000 = durMinNanos :=
  (c3_saturation 0 10000).2.1 (by norm_num)

/-- C4: every LocalDate produced by the date-arithmetic operations from a
valid input date is calendar-valid: the month lies in 1..=12 and the day
does not exceed the number of days in that month of that year. -/
theorem c4_arithmetic_valid (dt : LocalDate) (n : Int) (hv : dt.isValid) :
    (dt.plus_days n).isValid ∧ (dt.minus_days n).isValid ∧
    (dt.plus_weeks n).isValid ∧ (dt.minus_weeks n).isValid ∧
    (∀ e, dt.plus_months n = some e → e.isValid) ∧
    (∀ e, dt.minus_months n = some e → e.isValid) ∧
    (∀ e, dt.plus_years n = some e → e.isValid) ∧
    (∀ e, dt.minus_years n = some e → e.isValid) := by
  have hpy : ∀ k : Int, ∀ e, dt.plus_years k = some e → e.isValid := by
    intro k e he
    rcases le_or_lt (dt.year + k) 2147483647 with hr1 | hr1
    · rcases le_or_lt (-2147483648) (dt.year + k) with hr2 | hr2
      · obtain ⟨heq, hval⟩ := (plus_years_eq dt k hv).2 hr1 hr2
        rw [heq] at he
        injection he with he2
        rw [← he2]
        exact hval
      · rw [(plus_years_eq dt k hv).1 (by omega)] at he
        cases he
    · rw [(plus_years_eq dt k hv).1 (by omega)] at he
      cases he
  refine ⟨ofEpochDay_valid _, ofEpochDay_valid _, ofEpochDay_valid _, ofEpochDay_valid _,
    ?_, ?_, hpy n, hpy (-n)⟩
  · intro e he
    rw [(plus_months_eq dt n hv).1] at he
    injection he with he2
    rw [← he2]
    exact (plus_months_eq dt n hv).2
  · intro e he
    obtain ⟨f, hf, hfv, _⟩ := minus_months_some dt n hv
    rw [hf] at he
    injection he with he2
    rw [← he2]
    exact hfv

/-- Witness for C4 at a leap-day date. -/
theorem c4_witness :
    LocalDate.isValid ⟨2020, 2, 29⟩ ∧ (LocalDate.plus_days ⟨2020, 2, 29⟩ 1).isValid := by
  refine ⟨by decide, (c4_arithmetic_valid ⟨2020, 2, 29⟩ 1 (by decide)).1⟩

/-- C5: plus_years on a valid date signals a fatal error exactly when the
target year leaves the i32 range (no saturation); otherwise it keeps the
month, replaces the year, and clamps only a February 29 day to February 28
when the target year is not a leap year, passing every other month/day
combination through unchanged. -/
theorem c5_plus_years_rule (dt : LocalDate) (n : Int) (hv : dt.isValid) :
    (dt.year + n > 2147483647 ∨ dt.year + n < -2147483648 → dt.plus_years n = none) ∧
    (dt.year + n ≤ 2147483647 → -2147483648 ≤ dt.year + n →
      dt.plus_years n = some ⟨dt.year + n, dt.month,
        if dt.month = 2 ∧ dt.day = 29 ∧ Year.is_leap (dt.year + n) = false then 28
        else dt.day⟩ ∧
      (⟨dt.year + n, dt.month,
        if dt.month = 2 ∧ dt.day = 29 ∧ Year.is_leap (dt.year + n) = false then 28
        else dt.day⟩ : LocalDate).isValid) :=
  plus_years_eq dt n hv

/-- Witness for C5: the leap-day clamp example of the spec and a year
overflow. -/
theorem c5_witness :
    LocalDate.plus_years ⟨2020, 2, 29⟩ 1 = some ⟨2021, 2, 28⟩ ∧
    LocalDate.plus_years ⟨2020, 2, 29⟩ 2147483647 = none := by
  constructor
  · have h := (c5_plus_years_rule ⟨2020, 2, 29⟩ 1 (by decide)).2 (by norm_num) (by norm_num)
    rw [h.1]
    decide
  · exact (c5_plus_years_rule ⟨2020, 2, 29⟩ 2147483647 (by decide)).1 (by norm_num)

/-- C6: every LocalTime plus_*/minus_* operation reduces the total
nanosecond-of-day count modulo 24 hours with the always-non-negative
Euclidean remainder, never fails (the result is always a valid time of day,
with no carry into any date), and wraps silently: 23:00 plus 2 hours is
01:00 and midnight minus one nanosecond is 23:59:59.999999999. -/
theorem c6_time_wraparound :
    (∀ t : LocalTime, ∀ k : Int,
      ((t.plus_hours k).toNanoOfDay = (t.toNanoOfDay + k * 3600000000000) % dayNanos ∧
        (t.plus_hours k).isValid) ∧
      ((t.minus_hours k).toNanoOfDay = (t.toNanoOfDay + -(k * 3600000000000)) % dayNanos ∧
        (t.minus_hours k).isValid) ∧
      ((t.plus_minutes k).toNanoOfDay = (t.toNanoOfDay + k * 60000000000) % dayNanos ∧
        (t.plus_minutes k).isValid) ∧
      ((t.minus_minutes k).toNanoOfDay = (t.toNanoOfDay + -(k * 60000000000)) % dayNanos ∧
        (t.minus_minutes k).isValid) ∧
      ((t.plus_seconds k).toNanoOfDay = (t.toNanoOfDay + k * 1000000000) % dayNanos ∧
        (t.plus_seconds k).isValid) ∧
      ((t.minus_seconds k).toNanoOfDay = (t.toNanoOfDay + -(k * 1000000000)) % dayNanos ∧
        (t.minus_seconds k).isValid) ∧
      ((t.plus_milliseconds k).toNanoOfDay = (t.toNanoOfDay + k * 1000000) % dayNanos ∧
        (t.plus_milliseconds k).isValid) ∧
      ((t.minus_milliseconds k).toNanoOfDay = (t.toNanoOfDay + -(k * 1000000)) % dayNanos ∧
        (t.minus_milliseconds k).isValid) ∧
      ((t.plus_nanoseconds k).toNanoOfDay = (t.toNanoOfDay + k) % dayNanos ∧
        (t.plus_nanoseconds k).isValid) ∧
      ((t.minus_nanoseconds k).toNanoOfDay = (t.toNanoOfDay + -k) % dayNanos ∧
        (t.minus_nanoseconds k).isValid)) ∧
    LocalTime.plus_hours ⟨23, 0, 0, 0⟩ 2 = ⟨1, 0, 0, 0⟩ ∧
    LocalTime.minus_nanoseconds ⟨0, 0, 0, 0⟩ 1 = ⟨23, 59, 59, 999999999⟩ := by
  refine ⟨fun t k => ⟨timeAddNanos_eq t _, timeAddNanos_eq t _, timeAddNanos_eq t _,
    timeAddNanos_eq t _, timeAddNanos_eq t _, timeAddNanos_eq t _, timeAddNanos_eq t _,
    timeAddNanos_eq t _, timeAddNanos_eq t _, timeAddNanos_eq t _⟩, ?_, ?_⟩
  · decide
  · decide

/-- C7: the time-scale operations of LocalDateTime shift the whole epoch
timeline, carrying overflow past the day boundary into the date component
instead of wrapping the time alone; adding 2 hours at 23:00 lands at 01:00
on the following date. -/
theorem c7_datetime_carry :
    (∀ dt : LocalDateTime, ∀ k : Int,
      (dt.plus_hours k).epochNanos = dt.epochNanos + k * 3600000000000 ∧
      (dt.minus_hours k).epochNanos = dt.epochNanos + -(k * 3600000000000) ∧
      (dt.plus_minutes k).epochNanos = dt.epochNanos + k * 60000000000 ∧
      (dt.minus_minutes k).epochNanos = dt.epochNanos + -(k * 60000000000) ∧
      (dt.plus_seconds k).epochNanos = dt.epochNanos + k * 1000000000 ∧
      (dt.minus_seconds k).epochNanos = dt.epochNanos + -(k * 1000000000) ∧
      (dt.plus_milliseconds k).epochNanos = dt.epochNanos + k * 1000000 ∧
      (dt.minus_milliseconds k).epochNanos = dt.epochNanos + -(k * 1000000) ∧
      (dt.plus_nanoseconds k).epochNanos = dt.epochNanos + k ∧
      (dt.minus_nanoseconds k).epochNanos = dt.epochNanos + -k) ∧
    LocalDateTime.plus_hours ⟨⟨2021, 3, 14⟩, ⟨23, 0, 0, 0⟩⟩ 2 =
      ⟨⟨2021, 3, 15⟩, ⟨1, 0, 0, 0⟩⟩ := by
  refine ⟨fun dt k => ⟨dtAddNanos_eq dt _, dtAddNanos_eq dt _, dtAddNanos_eq dt _,
    dtAddNanos_eq dt _, dtAddNanos_eq dt _, dtAddNanos_eq dt _, dtAddNanos_eq dt _,
    dtAddNanos_eq dt _, dtAddNanos_eq dt _, dtAddNanos_eq dt _⟩, ?_⟩
  decide

/-- C8 counterexample: the i128 quotient is cast "as i64" with
two's-complement wrapping, so for the Nanos unit on two valid instants about
317 years apart the returned count is not the exact truncated quotient
(which is 10^19, outside the i64 range) but its wrapped value. -/
theorem c8_between_wrap_counterexample :
    ChronoUnit.between ChronoUnit.Nanos (Instant.of_epoch_second 0)
      (Instant.of_epoch_second 10000000000) = -8446744073709551616 ∧
    ((Instant.of_epoch_second 10000000000).epoch_nanoseconds -
      (Instant.of_epoch_second 0).epoch_nanoseconds).tdiv
        (ChronoUnit.unitNanos ChronoUnit.Nanos) = 10000000000000000000 ∧
    ChronoUnit.between ChronoUnit.Nanos (Instant.of_epoch_second 0)
      (Instant.of_epoch_second 10000000000) ≠ 10000000000000000000 := by
  refine ⟨by decide, by decide, by decide⟩

/-- C8 as amended: between computes the exact epoch-nanosecond difference
divided by the fixed nanosecond length of the unit with truncation toward
zero, and returns exactly that quotient whenever it fits in the i64 range
(otherwise the quotient is reduced by the wrapping "as i64" cast); the
calendar approximations are exactly 30 and 365 days of nanoseconds for
Months and Years. -/
theorem c8_between_quotient (u : ChronoUnit) (s e : Instant)
    (h1 : -9223372036854775808 ≤
      (e.epoch_nanoseconds - s.epoch_nanoseconds).tdiv u.unitNanos)
    (h2 : (e.epoch_nanoseconds - s.epoch_nanoseconds).tdiv u.unitNanos ≤ 9223372036854775807) :
    ChronoUnit.between u s e =
      (e.epoch_nanoseconds - s.epoch_nanoseconds).tdiv u.unitNanos ∧
    ChronoUnit.unitNanos ChronoUnit.Months = 30 * 86400 * 1000000000 ∧
    ChronoUnit.unitNanos ChronoUnit.Years = 365 * 86400 * 1000000000 :=
  ⟨wrap_id _ h1 h2, rfl, rfl⟩

/-- Witness for C8 at the 3661-second gap examples of the spec. -/
theorem c8_witness :
    ChronoUnit.between ChronoUnit.Seconds (Instant.of_epoch_second 0)
      (Instant.of_epoch_second 3661) = 3661 ∧
    ChronoUnit.between ChronoUnit.Hours (Instant.of_epoch_second 0)
      (Instant.of_epoch_second 3661) = 1 ∧
    ChronoUnit.between ChronoUnit.Days (Instant.of_epoch_second 0)
      (Instant.of_epoch_second 3661) = 0 := by
  refine ⟨?_, ?_, ?_⟩
  · rw [(c8_between_quotient ChronoUnit.Seconds (Instant.of_epoch_second 0)
      (Instant.of_epoch_second 3661) (by decide) (by decide)).1]
    decide
  · rw [(c8_between_quotient ChronoUnit.Hours (Instant.of_epoch_second 0)
      (Instant.of_epoch_second 3661) (by decide) (by decide)).1]
    decide
  · rw [(c8_between_quotient ChronoUnit.Days (Instant.of_epoch_second 0)
      (Instant.of_epoch_second 3661) (by decide) (by decide)).1]
    decide

/-- C9: the field setters revalidate the whole resulting date and fail on an
invalid result instead of clamping: whenever a setter succeeds, the result
carries exactly the requested field value (after the u8 wrap of the source
casts) with the other fields unchanged, and is calendar-valid; invalid
requests give none, in contrast to the clamping of plus_months. -/
theorem c9_setters_reject :
    (∀ dt : LocalDate, ∀ k : Int, dt.isValid → ∀ e, dt.with_day_of_month k = some e →
      e.isValid ∧ e.year = dt.year ∧ e.month = dt.month ∧ e.day = k % 256) ∧
    (∀ dt : LocalDate, ∀ k : Int, dt.isValid → ∀ e, dt.with_month k = some e →
      e.isValid ∧ e.year = dt.year ∧ e.month = k % 256 ∧ e.day = dt.day) ∧
    (∀ dt : LocalDate, ∀ k : Int, dt.isValid → ∀ e, dt.with_year k = some e →
      e.isValid ∧ e.year = k ∧ e.month = dt.month ∧ e.day = dt.day) ∧
    (∀ dt : LocalDate, ∀ k : Int, 0 ≤ k → ∀ e, dt.with_day_of_year k = some e →
      e.isValid ∧ e.year = dt.year ∧ e.day_of_year = k) ∧
    LocalDate.with_day_of_month ⟨2023, 4, 15⟩ 31 = none ∧
    LocalDate.with_month ⟨2023, 1, 31⟩ 2 = none ∧
    LocalDate.with_year ⟨2020, 2, 29⟩ 2021 = none ∧
    LocalDate.with_day_of_year ⟨2023, 4, 15⟩ 366 = none ∧
    LocalDate.plus_months ⟨2023, 1, 31⟩ 1 = some ⟨2023, 2, 28⟩ := by
  refine ⟨?_, ?_, ?_, ?_, by decide, by decide, by decide, by decide, ?_⟩
  · intro dt k hv e he
    obtain ⟨hm1, hm12, _, _⟩ := hv
    unfold LocalDate.with_day_of_month at he
    simp only at he
    split at he
    · injection he with he2
      rw [← he2]
      rename_i hcond
      exact ⟨⟨hm1, hm12, hcond.1, hcond.2⟩, rfl, rfl, rfl⟩
    · cases he
  · intro dt k hv e he
    obtain ⟨_, _, hd1, _⟩ := hv
    unfold LocalDate.with_month at he
    simp only at he
    split at he
    · injection he with he2
      rw [← he2]
      rename_i hcond
      exact ⟨⟨hcond.1, hcond.2.1, hd1, hcond.2.2⟩, rfl, rfl, rfl⟩
    · cases he
  · intro dt k hv e he
    obtain ⟨hm1, hm12, _, _⟩ := hv
    unfold LocalDate.with_year at he
    split at he
    · injection he with he2
      rw [← he2]
      rename_i hcond
      exact ⟨⟨hm1, hm12, hcond.1, hcond.2⟩, rfl, rfl, rfl⟩
    · cases he
  · intro dt k hk e he
    unfold LocalDate.with_day_of_year at he
    split at he
    · cases he
    · injection he with he2
      rename_i hcond
      push_neg at hcond
      have hlen : Year.length dt.year = 365 + (if Year.is_leap dt.year then 1 else 0) := by
        unfold Year.length
        rcases hb : Year.is_leap dt.year <;> simp
      have hoff := ofEpochDay_year_offset dt.year (k - 1) (by omega) (by omega)
      rw [show epochDayOfYmd dt.year 1 1 + (k - 1) =
        epochDayOfYmd dt.year 1 1 + (k - 1) from rfl] at hoff
      refine ⟨?_, ?_, ?_⟩
      · rw [← he2]
        exact ofEpochDay_valid _
      · rw [← he2]
        exact hoff.1
      · rw [← he2]
        rw [hoff.2]
        omega
  · have h := (plus_months_eq ⟨2023, 1, 31⟩ 1 (by decide)).1
    rw [h]
    decide

/-- Witness for C9 on a concrete successful replacement. -/
theorem c9_witness :
    (⟨2023, 4, 30⟩ : LocalDate).isValid ∧ (⟨2023, 4, 30⟩ : LocalDate).year = 2023 ∧
      (⟨2023, 4, 30⟩ : LocalDate).month = 4 ∧ (⟨2023, 4, 30⟩ : LocalDate).day = 30 % 256 :=
  c9_setters_reject.1 ⟨2023, 4, 15⟩ 30 (by decide) ⟨2023, 4, 30⟩ (by decide)

/-- C10: of_second_of_day and of_nanosecond_of_day accept any signed input,
never fail, and reduce the input modulo 86400 seconds with the
always-non-negative Euclidean remainder, returning the wrapped time of day;
the other factories reject out-of-range fields instead. -/
theorem c10_wrapping_factories :
    (∀ s : Int, LocalTime.of_second_of_day s =
        some (LocalTime.ofNanoOfDay ((s * 1000000000) % 86400000000000)) ∧
      (LocalTime.ofNanoOfDay ((s * 1000000000) % 86400000000000)).isValid ∧
      (LocalTime.ofNanoOfDay ((s * 1000000000) % 86400000000000)).toNanoOfDay =
        (s * 1000000000) % 86400000000000) ∧
    (∀ n : Int, LocalTime.of_nanosecond_of_day n =
        some (LocalTime.ofNanoOfDay (n % 86400000000000)) ∧
      (LocalTime.ofNanoOfDay (n % 86400000000000)).isValid ∧
      (LocalTime.ofNanoOfDay (n % 86400000000000)).toNanoOfDay = n % 86400000000000) ∧
    LocalTime.of_second_of_day 86400 = some ⟨0, 0, 0, 0⟩ ∧
    LocalTime.of_second_of_day (-1) = some ⟨23, 59, 59, 0⟩ ∧
    LocalTime.of_nanosecond_of_day (-1) = some ⟨23, 59, 59, 999999999⟩ ∧
    LocalTime.new 24 0 0 = none ∧
    LocalTime.of_hms_nano 12 0 0 1000000000 = none := by
  have hmain : ∀ x : Int, LocalTime.of_total_nanos_of_day x =
      some (LocalTime.ofNanoOfDay (x % 86400000000000)) ∧
      (LocalTime.ofNanoOfDay (x % 86400000000000)).isValid ∧
      (LocalTime.ofNanoOfDay (x % 86400000000000)).toNanoOfDay = x % 86400000000000 := by
    intro x
    have hb1 : 0 ≤ x % 86400000000000 := Int.emod_nonneg x (by norm_num)
    have hb2 : x % 86400000000000 < 86400000000000 := Int.emod_lt_of_pos x (by norm_num)
    have hr := ofNano_roundtrip (x % 86400000000000) hb1 (by unfold dayNanos; omega)
    exact ⟨of_total_nanos_eq x, hr.2, hr.1⟩
  refine ⟨fun s => hmain (s * 1000000000), fun n => hmain n, ?_, ?_, ?_, by decide, by decide⟩
  · rw [show LocalTime.of_second_of_day 86400 =
      LocalTime.of_total_nanos_of_day (86400 * 1000000000) from rfl, (hmain _).1]
    decide
  · rw [show LocalTime.of_second_of_day (-1) =
      LocalTime.of_total_nanos_of_day (-1 * 1000000000) from rfl, (hmain _).1]
    decide
  · rw [show LocalTime.of_nanosecond_of_day (-1) =
      LocalTime.of_total_nanos_of_day (-1) from rfl, (hmain _).1]
    decide
